import Mathlib

/-!
Shallow embedding of the SBK_HT16K33 Arduino driver
(src/SBK_HT16K33.h, src/SBK_HT16K33.cpp).

The C++ class `SBK_HT16K33` holds:
  * `_devsNum   : uint8_t`        — number of managed devices (constrained to 1..8);
  * `_i2c_addr  : uint8_t[8]`     — per-device I2C address table;
  * `_maxRows   : uint8_t[8]`     — per-device configured row capacity (8/12/16);
  * `_buffer    : uint16_t *`     — frame buffer, `maxColumns() * _devsNum`
                                    16-bit words, or nullptr when unallocated.

We model machine words as `Nat`, with an explicit `% 65536` truncation
wherever a value is stored into a `uint16_t` buffer cell.  The two fixed-size
member arrays become length-8 `List Nat`s; the possibly-null buffer becomes
`Option (List Nat)`.  The constructor only initialises the first `_devsNum`
slots of the member arrays, so the model constructor `construct` takes a
`mem` argument standing for the indeterminate contents the remaining slots
keep.  All `Wire` (I2C bus) calls are reified as a `List BusEvent` trace
returned by the operations whose C++ bodies call `Wire`; operations whose
bodies contain no `Wire` call return no trace (the `Serial` debug prints in
`setLed` are UART logging, not bus traffic, and are not modelled).
-/

/-- One call into the `Wire` (two-wire bus) collaborator. -/
inductive BusEvent where
  | wireBegin : BusEvent
  | beginTx (addr : Nat) : BusEvent
  | writeByte (b : Nat) : BusEvent
  | endTx : BusEvent
deriving DecidableEq, Repr

/-- The member state of one `SBK_HT16K33` driver instance. -/
structure SBK_HT16K33 where
  devsNum : Nat
  i2c_addr : List Nat
  maxRowsTab : List Nat
  buffer : Option (List Nat)
deriving DecidableEq, Repr

namespace SBK_HT16K33

/-- `_defaultRowBufferSize` (header, line 268). -/
def defaultRowBufferSize : Nat := 8

/-- `_defaultColBufferSize` (header, line 269). -/
def defaultColBufferSize : Nat := 8

/-- `maxColumns()` (header, line 124): always `_defaultColBufferSize = 8`. -/
def maxColumns (_s : SBK_HT16K33) : Nat := defaultColBufferSize

/-- `maxRows(devIdx)` (header, line 114): unchecked read of `_maxRows[devIdx]`. -/
def maxRows (s : SBK_HT16K33) (devIdx : Nat) : Nat := s.maxRowsTab.getD devIdx 0

/-- `maxSegments(devIdx)` (header, line 144). -/
def maxSegments (s : SBK_HT16K33) (devIdx : Nat) : Nat :=
  maxRows s devIdx * maxColumns s

/-- `_colIndex(devIdx, colIdx)` (cpp, lines 188-191). -/
def colIndex (_s : SBK_HT16K33) (devIdx colIdx : Nat) : Nat :=
  devIdx * defaultColBufferSize + colIdx

/-- The Arduino `constrain(amt, low, high)` macro. -/
def constrain (amt low high : Nat) : Nat :=
  if amt < low then low else if amt > high then high else amt

/-- The constructor (cpp, lines 23-32): clamp the device count to 1..8, seed
addresses `0x70 + i` and row capacity 8 for `i < _devsNum`, leave the other
array slots at their indeterminate previous contents `mem`, buffer null. -/
def construct (devsNum : Nat) (mem : SBK_HT16K33) : SBK_HT16K33 :=
  let n := constrain devsNum 1 8
  { devsNum := n
    i2c_addr := (List.range 8).map fun i =>
      if i < n then 0x70 + i else mem.i2c_addr.getD i 0
    maxRowsTab := (List.range 8).map fun i =>
      if i < n then defaultRowBufferSize else mem.maxRowsTab.getD i 0
    buffer := none }

/-- `setAddress(devIdx, addr)` (cpp, lines 43-50): returns the new state and
the `uint8_t` result (0 = invalid, 1 = success). -/
def setAddress (s : SBK_HT16K33) (devIdx addr : Nat) : SBK_HT16K33 × Nat :=
  if devIdx ≥ s.devsNum ∨ addr < 0x70 ∨ addr > 0x77 then (s, 0)
  else ({ s with i2c_addr := s.i2c_addr.set devIdx addr }, 1)

/-- `setDriverRows(devIdx, rowsCount)` (header, lines 90-96). -/
def setDriverRows (s : SBK_HT16K33) (devIdx rowsCount : Nat) : SBK_HT16K33 :=
  if devIdx ≥ 8 ∨ (rowsCount ≠ 8 ∧ rowsCount ≠ 12 ∧ rowsCount ≠ 16) then s
  else { s with maxRowsTab := s.maxRowsTab.set devIdx rowsCount }

/-- `clear(devIdx)` (cpp, lines 82-92): zero the 8 buffer words of one device. -/
def clear (s : SBK_HT16K33) (devIdx : Nat) : SBK_HT16K33 :=
  if devIdx ≥ s.devsNum then s
  else
    match s.buffer with
    | none => s
    | some buf =>
        let buf2 := (List.range (maxColumns s)).foldl
          (fun b i => b.set (colIndex s devIdx i) 0) buf
        { s with buffer := some buf2 }

/-- `clear()` (cpp, lines 94-101): clear every device in index order. -/
def clearAll (s : SBK_HT16K33) : SBK_HT16K33 :=
  (List.range s.devsNum).foldl clear s

/-- `setBrightness(devIdx, brightness)` (cpp, lines 103-115).  The member
state is untouched; the bus sees one transaction with the dimming command
byte `HT16K33_CMD_DIMMING | (brightness & 0x0F)`. -/
def setBrightness (s : SBK_HT16K33) (devIdx brightness : Nat) : List BusEvent :=
  if devIdx ≥ s.devsNum then []
  else
    [BusEvent.beginTx (s.i2c_addr.getD devIdx 0),
     BusEvent.writeByte (0xE0 ||| (brightness &&& 0x0F)),
     BusEvent.endTx]

/-- `setBrightness(brightness)` (cpp, lines 117-124): broadcast form. -/
def setBrightnessAll (s : SBK_HT16K33) (brightness : Nat) : List BusEvent :=
  (List.range s.devsNum).flatMap fun d => setBrightness s d brightness

/-- `setLed(devIdx, rowIdx, colIdx, state)` (cpp, lines 126-146).  The stored
cell is a `uint16_t`, hence the explicit truncation to 16 bits: on the set
path the word becomes `(word | (1 << rowIdx))` truncated, on the clear path
`word & ~(1 << rowIdx)` restricted to the low 16 bits. -/
def setLed (s : SBK_HT16K33) (devIdx rowIdx colIdx : Nat) (state : Bool) :
    SBK_HT16K33 :=
  match s.buffer with
  | none => s
  | some buf =>
      if devIdx ≥ s.devsNum ∨ rowIdx ≥ maxRows s devIdx ∨
          colIdx ≥ maxColumns s then s
      else
        let index := colIndex s devIdx colIdx
        let word := buf.getD index 0
        let word2 :=
          if state then (word ||| (1 <<< rowIdx)) % 65536
          else word &&& (0xFFFF ^^^ ((1 <<< rowIdx) % 65536))
        { s with buffer := some (buf.set index word2) }

/-- `getLed(devIdx, rowIdx, colIdx)` (cpp, lines 148-155): the C++ returns
`(_buffer[index] >> rowIdx) & 0x01` converted to `bool`. -/
def getLed (s : SBK_HT16K33) (devIdx rowIdx colIdx : Nat) : Bool :=
  match s.buffer with
  | none => false
  | some buf =>
      if devIdx ≥ s.devsNum ∨ rowIdx ≥ maxRows s devIdx ∨
          colIdx ≥ maxColumns s then false
      else ((buf.getD (colIndex s devIdx colIdx) 0 >>> rowIdx) &&& 0x01) == 1

/-- `_write(devIdx)` (cpp, lines 157-173): one transaction — RAM opcode
`0x00`, then per column the low byte and the high byte of the 16-bit word. -/
def write (s : SBK_HT16K33) (devIdx : Nat) : List BusEvent :=
  match s.buffer with
  | none => []
  | some buf =>
      if devIdx ≥ s.devsNum then []
      else
        [BusEvent.beginTx (s.i2c_addr.getD devIdx 0), BusEvent.writeByte 0x00]
        ++ (List.range (maxColumns s)).foldl
            (fun evs colIdx =>
              let data := buf.getD (colIndex s devIdx colIdx) 0
              evs ++ [BusEvent.writeByte (data &&& 0xFF),
                      BusEvent.writeByte ((data >>> 8) &&& 0xFF)]) []
        ++ [BusEvent.endTx]

/-- `show(devIdx)` (cpp, lines 175-178): delegates to `_write`. -/
def showDev (s : SBK_HT16K33) (devIdx : Nat) : List BusEvent :=
  write s devIdx

/-- `show()` (cpp, lines 180-186): flush every device in index order. -/
def showAll (s : SBK_HT16K33) : List BusEvent :=
  (List.range s.devsNum).flatMap fun d => showDev s d

/-- `begin()` (cpp, lines 52-80).  `calloc` may fail; the model takes the
outcome as the `allocOk` flag.  On failure the buffer stays null and nothing
is sent.  On success: `Wire.begin()`, then per device the oscillator-on
transaction (`0x21`), the setup transaction
(`HT16K33_CMD_SETUP | HT16K33_DISPLAY_ON | HT16K33_BLINK_OFF`), default
brightness 8, `clear(i)` and `show(i)`. -/
def begin (s : SBK_HT16K33) (allocOk : Bool) : SBK_HT16K33 × List BusEvent :=
  if allocOk = false then ({ s with buffer := none }, [])
  else
    let s0 := { s with buffer := some (List.replicate (maxColumns s * s.devsNum) 0) }
    (List.range s0.devsNum).foldl
      (fun acc i =>
        let st := acc.1
        let addr := st.i2c_addr.getD i 0
        let evs := acc.2
          ++ [BusEvent.beginTx addr, BusEvent.writeByte 0x21, BusEvent.endTx,
              BusEvent.beginTx addr, BusEvent.writeByte (0x80 ||| 0x01 ||| 0x00),
              BusEvent.endTx]
          ++ setBrightness st i 8
        let st2 := clear st i
        (st2, evs ++ showDev st2 i))
      (s0, [BusEvent.wireBegin])

/-- The word stored at flat buffer index `i` (0 when unallocated). -/
def bufWord (s : SBK_HT16K33) (i : Nat) : Nat :=
  match s.buffer with
  | none => 0
  | some buf => buf.getD i 0

end SBK_HT16K33

/-- The public mutating/bus-facing operations of the class, reified so that
statements can quantify over "any public operation". -/
inductive Op where
  | opSetAddress (devIdx addr : Nat) : Op
  | opSetDriverRows (devIdx rowsCount : Nat) : Op
  | opSetLed (devIdx rowIdx colIdx : Nat) (state : Bool) : Op
  | opClear (devIdx : Nat) : Op
  | opClearAll : Op
  | opSetBrightness (devIdx brightness : Nat) : Op
  | opSetBrightnessAll (brightness : Nat) : Op
  | opShow (devIdx : Nat) : Op
  | opShowAll : Op
  | opBegin (allocOk : Bool) : Op
deriving DecidableEq, Repr

/-- Dispatch one public operation: resulting state and emitted bus trace.
Operations whose C++ bodies contain no `Wire` call emit the empty trace. -/
def stepOp (s : SBK_HT16K33) : Op → SBK_HT16K33 × List BusEvent
  | Op.opSetAddress d a => ((SBK_HT16K33.setAddress s d a).1, [])
  | Op.opSetDriverRows d r => (SBK_HT16K33.setDriverRows s d r, [])
  | Op.opSetLed d r c st => (SBK_HT16K33.setLed s d r c st, [])
  | Op.opClear d => (SBK_HT16K33.clear s d, [])
  | Op.opClearAll => (SBK_HT16K33.clearAll s, [])
  | Op.opSetBrightness d b => (s, SBK_HT16K33.setBrightness s d b)
  | Op.opSetBrightnessAll b => (s, SBK_HT16K33.setBrightnessAll s b)
  | Op.opShow d => (s, SBK_HT16K33.showDev s d)
  | Op.opShowAll => (s, SBK_HT16K33.showAll s)
  | Op.opBegin ok => SBK_HT16K33.begin s ok

/-- Modelled from the spec's wire-protocol description (the comparison side of
the C1 refinement): one device's frame write is the opcode byte `0x00`
followed, for each column 0..7 in ascending order, by the low byte (bits 0-7)
then the high byte (bits 8-15) of that column's 16-bit word, all inside one
transaction addressed to the device. -/
def specFrameEvents (addr : Nat) (word : Nat → Nat) : List BusEvent :=
  [BusEvent.beginTx addr, BusEvent.writeByte 0x00]
  ++ ((List.range 8).flatMap fun c =>
      [BusEvent.writeByte (word c % 256), BusEvent.writeByte (word c / 256 % 256)])
  ++ [BusEvent.endTx]

/-- A concrete stand-in for the indeterminate memory the constructor runs on. -/
def mem0 : SBK_HT16K33 :=
  { devsNum := 0, i2c_addr := List.replicate 8 0,
    maxRowsTab := List.replicate 8 0, buffer := none }

/-- A freshly constructed two-device controller (buffer unallocated). -/
def sA : SBK_HT16K33 := SBK_HT16K33.construct 2 mem0

/-- The same controller after a successful `begin()` (Ready state). -/
def sR : SBK_HT16K33 := (SBK_HT16K33.begin sA true).1

/-- The Ready controller's zeroed 16-word frame buffer. -/
def bufR : List Nat := List.replicate 16 0

/-- The Ready controller with the LED at device 1, row 2, column 3 switched
on. -/
def sW : SBK_HT16K33 := SBK_HT16K33.setLed sR 1 2 3 true

/-- The frame buffer of `sW`: word 11 (device 1, column 3) holds bit 2. -/
def bufW : List Nat := (List.replicate 16 0).set 11 4

/-! helper lemmas about `List.set`, `List.getD` and the loop shapes used by
the embedding, followed by characterisations of `setLed`, `getLed`, `clear`
and `_write` in the Ready state -/

theorem getD_set_lt (a : Nat) :
    ∀ (l : List Nat) (i : Nat), i < l.length → (l.set i a).getD i 0 = a := by
  intro l
  induction l with
  | nil => intro i h; simp at h
  | cons x xs ih =>
      intro i h
      cases i with
      | zero => rfl
      | succ n => exact ih n (by simpa using h)

theorem getD_set_ne (a : Nat) :
    ∀ (l : List Nat) (i j : Nat), i ≠ j →
      (l.set i a).getD j 0 = l.getD j 0 := by
  intro l
  induction l with
  | nil => intro i j _; simp [List.set]
  | cons x xs ih =>
      intro i j hne
      cases i with
      | zero =>
          cases j with
          | zero => exact absurd rfl hne
          | succ m => rfl
      | succ n =>
          cases j with
          | zero => rfl
          | succ m => exact ih n m (fun h => hne (by rw [h]))

theorem getD_set_zero :
    ∀ (l : List Nat) (i : Nat), (l.set i 0).getD i 0 = 0 := by
  intro l
  induction l with
  | nil => intro i; simp [List.set]
  | cons x xs ih =>
      intro i
      cases i with
      | zero => rfl
      | succ n => exact ih n

theorem foldl_emit {α β : Type} (g : α → List β) :
    ∀ (l : List α) (init : List β),
      l.foldl (fun evs c => evs ++ g c) init = init ++ l.flatMap g := by
  intro l
  induction l with
  | nil => intro init; simp
  | cons x xs ih =>
      intro init
      simp only [List.foldl_cons, List.flatMap_cons, ih, List.append_assoc]

theorem foldl_set_zero_getD (g : Nat → Nat) :
    ∀ (l : List Nat) (buf : List Nat) (j : Nat),
      (l.foldl (fun b i => b.set (g i) 0) buf).getD j 0 =
        if j ∈ l.map g then 0 else buf.getD j 0 := by
  intro l
  induction l with
  | nil => intro buf j; simp
  | cons x xs ih =>
      intro buf j
      rw [List.foldl_cons, ih]
      by_cases hx : j ∈ xs.map g
      · rw [if_pos hx, if_pos (by simp only [List.map_cons, List.mem_cons]; exact Or.inr hx)]
      · by_cases hj : j = g x
        · rw [if_neg hx, if_pos (by simp only [List.map_cons, List.mem_cons]; exact Or.inl hj)]
          subst hj
          exact getD_set_zero buf (g x)
        · rw [if_neg hx,
            if_neg (by simp only [List.map_cons, List.mem_cons]; rintro (h | h) <;> exact absurd h (by assumption))]
          exact getD_set_ne 0 buf (g x) j (fun h => hj h.symm)

theorem getBit_eq_testBit (w r : Nat) :
    (((w >>> r) &&& 1) == 1) = w.testBit r := by
  rw [Nat.testBit_to_div_mod, Nat.and_one_is_mod, Nat.shiftRight_eq_div_pow]
  rcases Nat.mod_two_eq_zero_or_one (w / 2 ^ r) with h | h <;> rw [h] <;> simp

theorem setBit16_testBit (w r : Nat) (hr : r < 16) :
    ((w ||| (1 <<< r)) % 65536).testBit r = true := by
  have h16 : (65536 : Nat) = 2 ^ 16 := by norm_num
  rw [Nat.one_shiftLeft, h16, Nat.testBit_mod_two_pow, Nat.testBit_or,
    Nat.testBit_two_pow_self]
  simp [hr]

theorem clearBit16_testBit (w r : Nat) (hr : r < 16) :
    (w &&& (0xFFFF ^^^ ((1 <<< r) % 65536))).testBit r = false := by
  have h16 : (65536 : Nat) = 2 ^ 16 := by norm_num
  have hp : (1 <<< r) % 65536 = 2 ^ r := by
    rw [Nat.one_shiftLeft, h16]
    exact Nat.mod_eq_of_lt (Nat.pow_lt_pow_right (by norm_num) hr)
  have hm : (0xFFFF : Nat) = 2 ^ 16 - 1 := by norm_num
  rw [hp, Nat.testBit_land, Nat.testBit_xor, Nat.testBit_two_pow_self, hm,
    Nat.testBit_two_pow_sub_one]
  simp [hr]

open SBK_HT16K33 in
theorem setLed_eq (s : SBK_HT16K33) (buf : List Nat) (hb : s.buffer = some buf)
    (devIdx rowIdx colIdx : Nat) (st : Bool)
    (hd : devIdx < s.devsNum) (hr : rowIdx < maxRows s devIdx) (hc : colIdx < 8) :
    setLed s devIdx rowIdx colIdx st =
      { s with buffer := some (buf.set (devIdx * 8 + colIdx)
        (if st then (buf.getD (devIdx * 8 + colIdx) 0 ||| (1 <<< rowIdx)) % 65536
         else buf.getD (devIdx * 8 + colIdx) 0 &&&
           (0xFFFF ^^^ ((1 <<< rowIdx) % 65536)))) } := by
  have hguard : ¬(devIdx ≥ s.devsNum ∨ rowIdx ≥ maxRows s devIdx ∨
      colIdx ≥ maxColumns s) := by
    push_neg
    exact ⟨hd, hr, hc⟩
  simp only [setLed, hb]
  rw [if_neg hguard]
  rfl

open SBK_HT16K33 in
theorem getLed_eq (s : SBK_HT16K33) (buf : List Nat) (hb : s.buffer = some buf)
    (devIdx rowIdx colIdx : Nat)
    (hd : devIdx < s.devsNum) (hr : rowIdx < maxRows s devIdx) (hc : colIdx < 8) :
    getLed s devIdx rowIdx colIdx =
      (buf.getD (devIdx * 8 + colIdx) 0).testBit rowIdx := by
  have hguard : ¬(devIdx ≥ s.devsNum ∨ rowIdx ≥ maxRows s devIdx ∨
      colIdx ≥ maxColumns s) := by
    push_neg
    exact ⟨hd, hr, hc⟩
  simp only [getLed, hb]
  rw [if_neg hguard, ← getBit_eq_testBit]
  rfl

open SBK_HT16K33 in
theorem clear_eq (s : SBK_HT16K33) (buf : List Nat) (devIdx : Nat)
    (hb : s.buffer = some buf) (hd : devIdx < s.devsNum) :
    clear s devIdx =
      { s with buffer := some ((List.range 8).foldl (fun b i => b.set (devIdx * 8 + i) 0) buf) } := by
  rw [clear, if_neg (Nat.not_le.mpr hd)]
  simp only [hb]
  rfl

open SBK_HT16K33 in
theorem showDev_eq_specFrame (s : SBK_HT16K33) (buf : List Nat)
    (hb : s.buffer = some buf) (devIdx : Nat) (hd : devIdx < s.devsNum) :
    showDev s devIdx =
      specFrameEvents (s.i2c_addr.getD devIdx 0) (fun c => buf.getD (devIdx * 8 + c) 0) := by
  rw [showDev, write]
  simp only [hb]
  rw [if_neg (Nat.not_le.mpr hd)]
  rw [foldl_emit (fun colIdx => [BusEvent.writeByte (buf.getD (colIndex s devIdx colIdx) 0 &&& 0xFF), BusEvent.writeByte ((buf.getD (colIndex s devIdx colIdx) 0 >>> 8) &&& 0xFF)])]
  rw [specFrameEvents, List.nil_append, show maxColumns s = 8 from rfl]
  have hbytes : ∀ data : Nat,
      [BusEvent.writeByte (data &&& 0xFF), BusEvent.writeByte ((data >>> 8) &&& 0xFF)]
        = [BusEvent.writeByte (data % 256), BusEvent.writeByte (data / 256 % 256)] := by
    intro data
    have h1 : data &&& 0xFF = data % 256 := by
      have := Nat.and_pow_two_sub_one_eq_mod data 8
      norm_num at this
      exact this
    have h2 : (data >>> 8) &&& 0xFF = data / 256 % 256 := by
      have := Nat.and_pow_two_sub_one_eq_mod (data >>> 8) 8
      norm_num at this
      rw [this, Nat.shiftRight_eq_div_pow]
    rw [h1, h2]
  have hcols : ((List.range 8).flatMap fun colIdx =>
      [BusEvent.writeByte (buf.getD (colIndex s devIdx colIdx) 0 &&& 0xFF),
       BusEvent.writeByte ((buf.getD (colIndex s devIdx colIdx) 0 >>> 8) &&& 0xFF)])
      = ((List.range 8).flatMap fun c =>
      [BusEvent.writeByte (buf.getD (devIdx * 8 + c) 0 % 256),
       BusEvent.writeByte (buf.getD (devIdx * 8 + c) 0 / 256 % 256)]) := by
    refine List.flatMap_congr fun c _ => ?_
    exact hbytes (buf.getD (devIdx * 8 + c) 0)
  rw [hcols]

theorem clear_devsNum (s : SBK_HT16K33) (d : Nat) :
    (SBK_HT16K33.clear s d).devsNum = s.devsNum := by
  rw [SBK_HT16K33.clear]
  split
  · rfl
  · rcases hb : s.buffer with _ | buf <;> simp [hb]

theorem foldl_clear_devsNum :
    ∀ (l : List Nat) (s : SBK_HT16K33),
      (l.foldl SBK_HT16K33.clear s).devsNum = s.devsNum := by
  intro l
  induction l with
  | nil => intro s; rfl
  | cons x xs ih => intro s; rw [List.foldl_cons, ih, clear_devsNum]

theorem foldl_fst_devsNum {α : Type}
    (f : (SBK_HT16K33 × List BusEvent) → α → (SBK_HT16K33 × List BusEvent))
    (hf : ∀ acc a, (f acc a).1.devsNum = acc.1.devsNum) :
    ∀ (l : List α) (acc : SBK_HT16K33 × List BusEvent),
      (l.foldl f acc).1.devsNum = acc.1.devsNum := by
  intro l
  induction l with
  | nil => intro acc; rfl
  | cons x xs ih => intro acc; rw [List.foldl_cons, ih, hf]

/-! the claims -/

open SBK_HT16K33 in
/-- C1: for every controller in the Ready state (buffer allocated), `show()`
flushes every device in ascending index order, and per device emits exactly
one bus transaction addressed to that device's configured address containing
the opcode byte `0x00` and then, for each column 0..7 in ascending order, the
low byte (bits 0-7) followed by the high byte (bits 8-15) of that column's
16-bit buffer word — 17 data bytes per device. -/
theorem claim_C1_showAll_frames (s : SBK_HT16K33) (buf : List Nat)
    (hb : s.buffer = some buf) :
    showAll s = (List.range s.devsNum).flatMap fun d =>
      specFrameEvents (s.i2c_addr.getD d 0) (fun c => buf.getD (d * 8 + c) 0) := by
  rw [showAll]
  refine List.flatMap_congr fun d hdm => ?_
  exact showDev_eq_specFrame s buf hb d (List.mem_range.mp hdm)

/-- Witness for C1 at a concrete input: the Ready two-device controller with
only the (device 1, row 2, column 3) LED on flushes two transactions, all
bytes zero except the low byte of device 1's column-3 word, which is
`0b100 = 4`. -/
theorem claim_C1_showAll_frames_witness :
    SBK_HT16K33.showAll sW =
      [BusEvent.beginTx 112, BusEvent.writeByte 0,
       BusEvent.writeByte 0, BusEvent.writeByte 0, BusEvent.writeByte 0,
       BusEvent.writeByte 0, BusEvent.writeByte 0, BusEvent.writeByte 0,
       BusEvent.writeByte 0, BusEvent.writeByte 0, BusEvent.writeByte 0,
       BusEvent.writeByte 0, BusEvent.writeByte 0, BusEvent.writeByte 0,
       BusEvent.writeByte 0, BusEvent.writeByte 0, BusEvent.writeByte 0,
       BusEvent.writeByte 0, BusEvent.endTx,
       BusEvent.beginTx 113, BusEvent.writeByte 0,
       BusEvent.writeByte 0, BusEvent.writeByte 0, BusEvent.writeByte 0,
       BusEvent.writeByte 0, BusEvent.writeByte 0, BusEvent.writeByte 0,
       BusEvent.writeByte 4, BusEvent.writeByte 0, BusEvent.writeByte 0,
       BusEvent.writeByte 0, BusEvent.writeByte 0, BusEvent.writeByte 0,
       BusEvent.writeByte 0, BusEvent.writeByte 0, BusEvent.writeByte 0,
       BusEvent.writeByte 0, BusEvent.endTx] :=
  (claim_C1_showAll_frames sW bufW (by decide)).trans (by decide)

open SBK_HT16K33 in
/-- C2: in the Ready state (buffer allocated with its `8 × devsNum` words,
row capacity one of the three configurable values), for every valid triple —
device below the device count, row below that device's configured capacity,
column below 8 — `setLed(d,r,c,true)` makes `getLed(d,r,c)` true, and a
subsequent `setLed(d,r,c,false)` makes it false again. -/
theorem claim_C2_roundtrip (s : SBK_HT16K33) (buf : List Nat)
    (devIdx rowIdx colIdx : Nat)
    (hb : s.buffer = some buf) (hlen : buf.length = 8 * s.devsNum)
    (hcap : maxRows s devIdx = 8 ∨ maxRows s devIdx = 12 ∨ maxRows s devIdx = 16)
    (hd : devIdx < s.devsNum) (hr : rowIdx < maxRows s devIdx) (hc : colIdx < 8) :
    getLed (setLed s devIdx rowIdx colIdx true) devIdx rowIdx colIdx = true ∧
    getLed (setLed (setLed s devIdx rowIdx colIdx true) devIdx rowIdx colIdx false)
      devIdx rowIdx colIdx = false := by
  have hr16 : rowIdx < 16 := by rcases hcap with h | h | h <;> omega
  have hidx : devIdx * 8 + colIdx < buf.length := by
    rw [hlen]; omega
  have hs1 := setLed_eq s buf hb devIdx rowIdx colIdx true hd hr hc
  rw [if_pos rfl] at hs1
  set b1 : List Nat := buf.set (devIdx * 8 + colIdx) ((buf.getD (devIdx * 8 + colIdx) 0 ||| (1 <<< rowIdx)) % 65536) with hb1
  have hidx1 : devIdx * 8 + colIdx < b1.length := by
    rw [hb1, List.length_set]; exact hidx
  constructor
  · rw [hs1, getLed_eq { s with buffer := some b1 } b1 rfl devIdx rowIdx colIdx hd hr hc, hb1, getD_set_lt _ buf _ hidx]
    exact setBit16_testBit _ rowIdx hr16
  · have hs2 := setLed_eq { s with buffer := some b1 } b1 rfl devIdx rowIdx colIdx false hd hr hc
    rw [if_neg (by simp)] at hs2
    rw [hs1, hs2, getLed_eq { s with buffer := some (b1.set (devIdx * 8 + colIdx) (b1.getD (devIdx * 8 + colIdx) 0 &&& (0xFFFF ^^^ ((1 <<< rowIdx) % 65536)))) } _ rfl devIdx rowIdx colIdx hd hr hc, getD_set_lt _ b1 _ hidx1]
    exact clearBit16_testBit _ rowIdx hr16

/-- Witness for C2 at a concrete input: on the Ready two-device controller,
switching (device 1, row 3, column 5) on then off round-trips through
`getLed`. -/
theorem claim_C2_roundtrip_witness :
    SBK_HT16K33.getLed (SBK_HT16K33.setLed sR 1 3 5 true) 1 3 5 = true ∧
    SBK_HT16K33.getLed
      (SBK_HT16K33.setLed (SBK_HT16K33.setLed sR 1 3 5 true) 1 3 5 false)
      1 3 5 = false :=
  claim_C2_roundtrip sR bufR 1 3 5 (by decide) (by decide) (Or.inl (by decide))
    (by decide) (by decide) (by decide)

/-- C3 counterexample: the claim lists `setBrightness` among the memory-only
operations that emit no bus bytes between two flushes, but on the concrete
two-device controller `setBrightness(0, 8)` emits a complete bus
transaction. -/
theorem claim_C3_counterexample :
    (stepOp sA (Op.opSetBrightness 0 8)).2 =
      [BusEvent.beginTx 0x70, BusEvent.writeByte 0xE8, BusEvent.endTx] ∧
    (stepOp sA (Op.opSetBrightness 0 8)).2 ≠ [] := by decide

/-- C3 (amended): `setLed`, `clear` (single-device and broadcast),
`setAddress` and `setDriverRows` are memory-only — they emit no bus bytes
between two flush calls — but flush is not the only bus-touching public
operation: `setBrightness` (and `begin`) also issue bus transactions. -/
theorem claim_C3_memory_only_ops (s : SBK_HT16K33) :
    (∀ devIdx addr, (stepOp s (Op.opSetAddress devIdx addr)).2 = []) ∧
    (∀ devIdx rows, (stepOp s (Op.opSetDriverRows devIdx rows)).2 = []) ∧
    (∀ devIdx rowIdx colIdx st,
      (stepOp s (Op.opSetLed devIdx rowIdx colIdx st)).2 = []) ∧
    (∀ devIdx, (stepOp s (Op.opClear devIdx)).2 = []) ∧
    (stepOp s Op.opClearAll).2 = [] :=
  ⟨fun _ _ => rfl, fun _ _ => rfl, fun _ _ _ _ => rfl, fun _ => rfl, rfl⟩

open SBK_HT16K33 in
/-- C4: any access with an out-of-range device index, row index (relative to
the device's configured capacity) or column index, and any access while the
buffer is unallocated, is safe: `getLed` returns false and `setLed` leaves
the whole state (in particular the buffer, byte for byte) unchanged. -/
theorem claim_C4_out_of_range_accesses_safe (s : SBK_HT16K33)
    (devIdx rowIdx colIdx : Nat) (st : Bool) :
    (s.buffer = none →
      getLed s devIdx rowIdx colIdx = false ∧
      setLed s devIdx rowIdx colIdx st = s) ∧
    ((devIdx ≥ s.devsNum ∨ rowIdx ≥ maxRows s devIdx ∨ colIdx ≥ 8) →
      getLed s devIdx rowIdx colIdx = false ∧
      setLed s devIdx rowIdx colIdx st = s) := by
  constructor
  · intro hb
    rw [getLed, setLed, hb]
    exact ⟨rfl, rfl⟩
  · intro hoor
    have hoor' : devIdx ≥ s.devsNum ∨ rowIdx ≥ maxRows s devIdx ∨
        colIdx ≥ maxColumns s := hoor
    rcases hbuf : s.buffer with _ | buf
    · rw [getLed, setLed, hbuf]
      exact ⟨rfl, rfl⟩
    · rw [getLed, setLed, hbuf]
      simp only [if_pos hoor']
      trivial

/-- Witness for C4 at concrete inputs: on the Ready two-device controller,
device index 5 (≥ 2), row 9 (≥ capacity 8) and column 8 are all read as false
and ignored on write, and every access on the unallocated controller is
inert. -/
theorem claim_C4_out_of_range_accesses_safe_witness :
    (SBK_HT16K33.getLed sR 5 0 0 = false ∧ SBK_HT16K33.setLed sR 5 0 0 true = sR) ∧
    (SBK_HT16K33.getLed sR 0 9 0 = false ∧ SBK_HT16K33.setLed sR 0 9 0 true = sR) ∧
    (SBK_HT16K33.getLed sR 0 0 8 = false ∧ SBK_HT16K33.setLed sR 0 0 8 true = sR) ∧
    (SBK_HT16K33.getLed sA 0 0 0 = false ∧ SBK_HT16K33.setLed sA 0 0 0 true = sA) :=
  ⟨(claim_C4_out_of_range_accesses_safe sR 5 0 0 true).2 (Or.inl (by decide)),
    (claim_C4_out_of_range_accesses_safe sR 0 9 0 true).2 (Or.inr (Or.inl (by decide))),
    (claim_C4_out_of_range_accesses_safe sR 0 0 8 true).2 (Or.inr (Or.inr (by decide))),
    (claim_C4_out_of_range_accesses_safe sA 0 0 0 true).1 (by decide)⟩

open SBK_HT16K33 in
/-- C5: `setAddress(devIdx, addr)` returns the failure indicator 0 and leaves
the state (in particular the address table) unchanged exactly when
`devIdx ≥ devsNum` or `addr` is outside 0x70..0x77; otherwise it overwrites
the mapping for `devIdx` with `addr` and returns 1. -/
theorem claim_C5_setAddress (s : SBK_HT16K33) (devIdx addr : Nat) :
    (((setAddress s devIdx addr).2 = 0 ∧ (setAddress s devIdx addr).1 = s) ↔
      (devIdx ≥ s.devsNum ∨ addr < 0x70 ∨ addr > 0x77)) ∧
    (devIdx < s.devsNum → 0x70 ≤ addr → addr ≤ 0x77 →
      (setAddress s devIdx addr).1.i2c_addr = s.i2c_addr.set devIdx addr ∧
      (setAddress s devIdx addr).2 = 1) := by
  by_cases h : devIdx ≥ s.devsNum ∨ addr < 0x70 ∨ addr > 0x77
  · rw [setAddress, if_pos h]
    exact ⟨⟨fun _ => h, fun _ => ⟨rfl, rfl⟩⟩, fun h1 h2 h3 => by omega⟩
  · rw [setAddress, if_neg h]
    exact ⟨⟨fun hc => absurd hc.1 (by simp), fun hc => absurd hc h⟩,
      fun _ _ _ => ⟨rfl, rfl⟩⟩

/-- Witness for C5 at a concrete input: on the two-device controller,
`setAddress(1, 0x75)` succeeds and rewrites the table entry. -/
theorem claim_C5_setAddress_witness :
    1 < sA.devsNum ∧
    (SBK_HT16K33.setAddress sA 1 0x75).1.i2c_addr = sA.i2c_addr.set 1 0x75 ∧
    (SBK_HT16K33.setAddress sA 1 0x75).2 = 1 :=
  ⟨by decide,
    (claim_C5_setAddress sA 1 0x75).2 (by decide) (by decide) (by decide)⟩

open SBK_HT16K33 in
/-- C6: `setDriverRows(devIdx, rows)` accepts only the row capacities 8, 12
and 16: any other `rows` value is a no-op, as is any device index outside the
0..7 index range of the 8-slot table; the device count is never changed, a
call on a device index at or beyond the configured device count leaves every
configured device's capacity unchanged, and an accepted pair sets that
device's capacity to `rows`. -/
theorem claim_C6_setDriverRows (s : SBK_HT16K33) (devIdx rowsCount : Nat) :
    ((rowsCount ≠ 8 ∧ rowsCount ≠ 12 ∧ rowsCount ≠ 16) →
      setDriverRows s devIdx rowsCount = s) ∧
    (devIdx ≥ 8 → setDriverRows s devIdx rowsCount = s) ∧
    (setDriverRows s devIdx rowsCount).devsNum = s.devsNum ∧
    (devIdx ≥ s.devsNum → ∀ d, d < s.devsNum →
      maxRows (setDriverRows s devIdx rowsCount) d = maxRows s d) ∧
    (devIdx < 8 → (rowsCount = 8 ∨ rowsCount = 12 ∨ rowsCount = 16) →
      s.maxRowsTab.length = 8 →
      maxRows (setDriverRows s devIdx rowsCount) devIdx = rowsCount) := by
  by_cases h : devIdx ≥ 8 ∨ (rowsCount ≠ 8 ∧ rowsCount ≠ 12 ∧ rowsCount ≠ 16)
  · rw [setDriverRows, if_pos h]
    exact ⟨fun _ => rfl, fun _ => rfl, rfl, fun _ d _ => rfl,
      fun h1 h2 _ => by omega⟩
  · rw [setDriverRows, if_neg h]
    push_neg at h
    refine ⟨fun hc => absurd hc (by omega), fun hc => absurd hc (by omega),
      rfl, fun hge d hd => ?_, fun _ _ hlen => ?_⟩
    · exact getD_set_ne rowsCount s.maxRowsTab devIdx d (by omega)
    · exact getD_set_lt rowsCount s.maxRowsTab devIdx (by omega)

/-- Witness for C6 at concrete inputs: on the two-device controller,
`setDriverRows(1, 12)` sets device 1's capacity to 12, and `setDriverRows(1, 9)`
is a no-op. -/
theorem claim_C6_setDriverRows_witness :
    SBK_HT16K33.maxRows (SBK_HT16K33.setDriverRows sA 1 12) 1 = 12 ∧
    SBK_HT16K33.setDriverRows sA 1 9 = sA :=
  ⟨(claim_C6_setDriverRows sA 1 12).2.2.2.2 (by decide) (by decide) (by decide),
    (claim_C6_setDriverRows sA 1 9).1 (by decide)⟩

open SBK_HT16K33 in
/-- C7: for `devIdx < devsNum`, `setBrightness(devIdx, level)` emits a single
transaction whose command byte is `0xE0 | (level & 0x0F)`, i.e.
`224 + level % 16`; in particular levels 31 and 15 both encode `0xEF` —
levels above 15 are truncated to their low 4 bits, never rejected. -/
theorem claim_C7_setBrightness_truncation (s : SBK_HT16K33) (devIdx level : Nat)
    (h : devIdx < s.devsNum) :
    setBrightness s devIdx level =
      [BusEvent.beginTx (s.i2c_addr.getD devIdx 0),
       BusEvent.writeByte (224 + level % 16), BusEvent.endTx] ∧
    setBrightness s devIdx 31 = setBrightness s devIdx 15 ∧
    setBrightness s devIdx 31 =
      [BusEvent.beginTx (s.i2c_addr.getD devIdx 0),
       BusEvent.writeByte 0xEF, BusEvent.endTx] := by
  have hor : ∀ x : Nat, x < 16 → 224 ||| x = 224 + x := by decide
  have hgen : ∀ lvl : Nat, setBrightness s devIdx lvl =
      [BusEvent.beginTx (s.i2c_addr.getD devIdx 0),
       BusEvent.writeByte (224 + lvl % 16), BusEvent.endTx] := by
    intro lvl
    rw [setBrightness, if_neg (Nat.not_le.mpr h)]
    have hand : lvl &&& 0x0F = lvl % 16 := Nat.and_pow_two_sub_one_eq_mod lvl 4
    rw [hand, hor (lvl % 16) (Nat.mod_lt lvl (by norm_num))]
  exact ⟨hgen level, by rw [hgen 31, hgen 15], by rw [hgen 31]⟩

/-- Witness for C7 at a concrete input: on the two-device controller, level 31
on device 0 encodes the dimming byte `0xEF` at address 0x70. -/
theorem claim_C7_setBrightness_truncation_witness :
    0 < sA.devsNum ∧
    SBK_HT16K33.setBrightness sA 0 31 =
      [BusEvent.beginTx 0x70, BusEvent.writeByte 0xEF, BusEvent.endTx] :=
  ⟨by decide,
    ((claim_C7_setBrightness_truncation sA 0 31 (by decide)).2.2).trans (by decide)⟩

open SBK_HT16K33 in
/-- C8: in the Ready state, after `clear(d)` on a valid device index,
`getLed(d, r, c)` is false for every in-range row and column of device d, and
every buffer word belonging to a device other than d is unchanged. -/
theorem claim_C8_clear_device (s : SBK_HT16K33) (buf : List Nat) (devIdx : Nat)
    (hb : s.buffer = some buf) (hd : devIdx < s.devsNum) :
    (∀ rowIdx colIdx, rowIdx < maxRows s devIdx → colIdx < 8 →
      getLed (clear s devIdx) devIdx rowIdx colIdx = false) ∧
    (∀ d c, d ≠ devIdx → c < 8 →
      bufWord (clear s devIdx) (d * 8 + c) = bufWord s (d * 8 + c)) := by
  set bufc : List Nat := (List.range 8).foldl (fun b i => b.set (devIdx * 8 + i) 0) buf with hbufc
  have hc2 : clear s devIdx = { s with buffer := some bufc } := clear_eq s buf devIdx hb hd
  constructor
  · intro rowIdx colIdx hr hcc
    rw [hc2, getLed_eq { s with buffer := some bufc } bufc rfl devIdx rowIdx colIdx hd hr hcc, hbufc,
      foldl_set_zero_getD (fun i => devIdx * 8 + i) (List.range 8) buf (devIdx * 8 + colIdx),
      if_pos (by simp only [List.mem_map, List.mem_range]; exact ⟨colIdx, hcc, rfl⟩)]
    exact Nat.zero_testBit rowIdx
  · intro d c hdne hcc
    rw [hc2]
    simp only [bufWord, hb, hbufc]
    rw [foldl_set_zero_getD (fun i => devIdx * 8 + i) (List.range 8) buf (d * 8 + c),
      if_neg (by simp only [List.mem_map, List.mem_range]; rintro ⟨i, hi, hie⟩; omega)]

/-- Witness for C8 at a concrete input: clearing device 1 of the controller
whose (1,2,3) LED is on turns that LED's readback off and leaves device 0's
words (e.g. flat word 5) untouched. -/
theorem claim_C8_clear_device_witness :
    SBK_HT16K33.getLed (SBK_HT16K33.clear sW 1) 1 2 3 = false ∧
    SBK_HT16K33.bufWord (SBK_HT16K33.clear sW 1) 5 = SBK_HT16K33.bufWord sW 5 :=
  have h := claim_C8_clear_device sW bufW 1 (by decide) (by decide)
  ⟨h.1 2 3 (by decide) (by decide), h.2 0 5 (by decide) (by decide)⟩

/-- C9: the constructor clamps the device count into 1..8 (argument 0 yields
1, arguments above 8 yield 8), and no public operation changes it
afterwards. -/
theorem claim_C9_devsNum_invariant :
    (∀ n mem, 1 ≤ (SBK_HT16K33.construct n mem).devsNum ∧
      (SBK_HT16K33.construct n mem).devsNum ≤ 8) ∧
    (∀ mem, (SBK_HT16K33.construct 0 mem).devsNum = 1) ∧
    (∀ n mem, n > 8 → (SBK_HT16K33.construct n mem).devsNum = 8) ∧
    (∀ s op, (stepOp s op).1.devsNum = s.devsNum) := by
  have hcon : ∀ n mem, (SBK_HT16K33.construct n mem).devsNum =
      SBK_HT16K33.constrain n 1 8 := fun n mem => rfl
  refine ⟨fun n mem => ?_, fun mem => ?_, fun n mem hn => ?_, fun s op => ?_⟩
  · rw [hcon, SBK_HT16K33.constrain]
    split
    · omega
    · split <;> omega
  · rfl
  · rw [hcon, SBK_HT16K33.constrain, if_neg (by omega), if_pos hn]
  · cases op with
    | opSetAddress d a =>
        simp only [stepOp, SBK_HT16K33.setAddress]
        split <;> rfl
    | opSetDriverRows d r =>
        simp only [stepOp, SBK_HT16K33.setDriverRows]
        split <;> rfl
    | opSetLed d r c st =>
        simp only [stepOp, SBK_HT16K33.setLed]
        rcases hb : s.buffer with _ | buf <;> simp only [hb]
        split <;> rfl
    | opClear d => exact clear_devsNum s d
    | opClearAll => exact foldl_clear_devsNum (List.range s.devsNum) s
    | opSetBrightness d b => rfl
    | opSetBrightnessAll b => rfl
    | opShow d => rfl
    | opShowAll => rfl
    | opBegin ok =>
        simp only [stepOp, SBK_HT16K33.begin]
        split
        · rfl
        · rw [foldl_fst_devsNum]
          intro acc i
          exact clear_devsNum acc.1 i

/-- Witness for C9 at concrete inputs: constructor argument 9 clamps to 8,
argument 0 clamps to 1, and a sample operation preserves the count. -/
theorem claim_C9_devsNum_invariant_witness :
    (SBK_HT16K33.construct 9 mem0).devsNum = 8 ∧
    (SBK_HT16K33.construct 0 mem0).devsNum = 1 ∧
    (stepOp sA (Op.opSetDriverRows 0 12)).1.devsNum = sA.devsNum :=
  ⟨claim_C9_devsNum_invariant.2.2.1 9 mem0 (by decide),
    claim_C9_devsNum_invariant.2.1 mem0,
    claim_C9_devsNum_invariant.2.2.2 sA (Op.opSetDriverRows 0 12)⟩

open SBK_HT16K33 in
/-- C10: with the buffer unallocated (`_buffer == nullptr`), `setBrightness`
on a valid device index still emits its full bus transaction (begin at the
device's address, dimming command byte, end), while flush emits nothing and
the buffer operations `setLed`, `clear` and `getLed` are inert. -/
theorem claim_C10_brightness_without_buffer (s : SBK_HT16K33)
    (devIdx level rowIdx colIdx : Nat) (st : Bool)
    (hb : s.buffer = none) (h : devIdx < s.devsNum) :
    setBrightness s devIdx level =
      [BusEvent.beginTx (s.i2c_addr.getD devIdx 0),
       BusEvent.writeByte (0xE0 ||| (level &&& 0x0F)), BusEvent.endTx] ∧
    setBrightness s devIdx level ≠ [] ∧
    showDev s devIdx = [] ∧
    setLed s devIdx rowIdx colIdx st = s ∧
    clear s devIdx = s ∧
    getLed s devIdx rowIdx colIdx = false := by
  refine ⟨by rw [setBrightness, if_neg (Nat.not_le.mpr h)], ?_, ?_, ?_, ?_, ?_⟩
  · rw [setBrightness, if_neg (Nat.not_le.mpr h)]
    simp
  · rw [showDev, write, hb]
  · rw [setLed, hb]
  · rw [clear, hb]
    simp
  · rw [getLed, hb]

/-- Witness for C10 at a concrete input: the freshly constructed (unallocated)
two-device controller still sends the full dimming transaction for level 5 on
device 0, while flush and LED operations are inert. -/
theorem claim_C10_brightness_without_buffer_witness :
    sA.buffer = none ∧ 0 < sA.devsNum ∧
    SBK_HT16K33.setBrightness sA 0 5 =
      [BusEvent.beginTx 0x70, BusEvent.writeByte 0xE5, BusEvent.endTx] ∧
    SBK_HT16K33.showDev sA 0 = [] ∧
    SBK_HT16K33.setLed sA 0 1 2 true = sA :=
  have h := claim_C10_brightness_without_buffer sA 0 5 1 2 true (by decide) (by decide)
  ⟨by decide, by decide, h.1.trans (by decide), h.2.2.1, h.2.2.2.1⟩
